import Mathlib

/-!
Verification of the driver/task cooperative-suspension protocol and the
spill coordination of the velox execution engine excerpt.

The control-protocol implementation (Task.cpp / Driver.cpp) and the spill
statistics implementation (SpillStats.cpp) are not part of the excerpt's
sources; only their tests are (velox/exec/tests/DriverTest.cpp,
velox/common/base/tests/SpillStatsTest.cpp).  Those parts are therefore
modelled from the specification, and every modelled behaviour is validated
below against the concrete scenarios the tests in the sources pin down.
The RowNumber spill logic (velox/exec/RowNumber.cpp) is part of the sources
and is embedded directly.
-/

set_option maxHeartbeats 1000000

/-- The resolved action a driver must take at a checkpoint.  Mirrors the
`StopReason` enumeration of the spec (§3): `{None, Yield, Pause,
Terminate, AlreadyTerminated}`. -/
inductive StopReason where
  | kNone
  | kYield
  | kPause
  | kTerminate
  | kAlreadyTerminated
  deriving DecidableEq, Repr

/-- Global task run states (spec §3): `{Running, Finished, Canceled,
Aborted, Failed}`. -/
inductive TaskState where
  | kRunning
  | kFinished
  | kCanceled
  | kAborted
  | kFailed
  deriving DecidableEq, Repr

/-- Modelled from the spec: the pure StopReason decision function of §4.1
(`Task::shouldStop`; Task.cpp is not part of the sources).  Inputs are the
pending control flags visible at one evaluation:
`driverTerminated` — the termination already took visible effect for this
driver; `terminateRequested` — the task has an active cancel/abort request;
`pauseRequested` — the task has an active pause request; `yieldFlag` /
`cpuBudgetExceeded` — this driver's own yield flag or an exceeded CPU
time-slice budget.  The rules are applied in the spec's priority order
1-5. -/
def shouldStop (driverTerminated terminateRequested pauseRequested
    yieldFlag cpuBudgetExceeded : Bool) : StopReason :=
  if driverTerminated then .kAlreadyTerminated
  else if terminateRequested then .kTerminate
  else if pauseRequested then .kPause
  else if yieldFlag || cpuBudgetExceeded then .kYield
  else .kNone

/-- Modelled from the spec: the task-side control flags a suspension call
observes (Task.cpp is not part of the sources).  `terminateRequested`
covers both cancel and abort requests (spec §4.3: whichever is requested
first wins; both behave identically for the suspension protocol). -/
structure SusTask where
  pauseRequested : Bool
  terminateRequested : Bool
  deriving DecidableEq, Repr

/-- Modelled from the spec: the driver-side thread state used by the
suspension protocol (`ThreadState` of Task.h, not part of the sources):
a nesting depth counter, the observable suspended flag, and whether
termination has already taken visible effect for this driver. -/
structure ThreadState where
  numSuspensions : Nat
  isSuspended : Bool
  isTerminated : Bool
  deriving DecidableEq, Repr

/-- Modelled from the spec (§4.1, §4.3): `Task::enterSuspended` (Task.cpp
is not part of the sources).  If termination already took visible effect,
or an active terminate request is pending, the call returns
`kAlreadyTerminated` without entering the section (marking the driver
terminated in the latter case).  Otherwise the suspension depth is
incremented, the observable suspended flag set, and `kNone` returned: an
active pause or yield does not stop a thread from entering a suspended
section (validated by DriverTest driverSuspensionRaceWithTaskPause /
driverSuspensionRaceWithTaskYield, which expect `kNone` there). -/
def enterSuspended (t : SusTask) (d : ThreadState) : StopReason × ThreadState :=
  if d.isTerminated then (.kAlreadyTerminated, d)
  else if t.terminateRequested then
    (.kAlreadyTerminated, { d with isTerminated := true })
  else
    (.kNone,
      { d with numSuspensions := d.numSuspensions + 1, isSuspended := true })

/-- Modelled from the spec (§4.1, §4.3): one re-check iteration of the
`Task::leaveSuspended` busy-wait loop (Task.cpp is not part of the
sources).  While the task has an active pause request the iteration does
not return (`none`: keep busy-waiting; validated by DriverTest
driverSuspendedAfterTaskTerminateBeforeResume, where the leave keeps
waiting during a pause even after the task was cancelled).  Once no pause
is active the suspension depth is decremented, the observable suspended
flag cleared exactly when the outermost section is left, and the
re-evaluated reason returned: `kAlreadyTerminated` when termination took
effect or is requested, else `kNone`. -/
def leaveSuspendedStep (t : SusTask) (d : ThreadState) :
    Option (StopReason × ThreadState) :=
  if t.pauseRequested then none
  else
    let depth := d.numSuspensions - 1
    let d := { d with numSuspensions := depth, isSuspended := depth ≠ 0 }
    if d.isTerminated then some (.kAlreadyTerminated, d)
    else if t.terminateRequested then
      some (.kAlreadyTerminated, { d with isTerminated := true })
    else some (.kNone, d)

/-- Modelled from the spec (§4.1): `Task::leaveSuspended` as a fold of
busy-wait re-checks over the task states observed at successive loop
iterations.  The result is `none` when the trace is exhausted while the
task is still paused (the call is still busy-waiting). -/
def leaveSuspended : List SusTask → ThreadState → Option (StopReason × ThreadState)
  | [], _ => none
  | t :: ts, d =>
    match leaveSuspendedStep t d with
    | some r => some r
    | none => leaveSuspended ts d

/-- A task control state with no pending request at all. -/
def runningTask : SusTask := { pauseRequested := false, terminateRequested := false }

/-- A task control state with termination requested (and no pause). -/
def terminatedTask : SusTask := { pauseRequested := false, terminateRequested := true }

/-- Entering a suspended section `n` times in a row (state part only). -/
def enterN (t : SusTask) (d : ThreadState) : Nat → ThreadState
  | 0 => d
  | n + 1 => (enterSuspended t (enterN t d n)).2

/-- One leave against a fixed task control state, state part only (total:
when the step would busy-wait the state is returned unchanged). -/
def leaveOnce (t : SusTask) (d : ThreadState) : ThreadState :=
  match leaveSuspendedStep t d with
  | some (_, d1) => d1
  | none => d

/-- Leaving a suspended section `n` times in a row (state part only). -/
def leaveN (t : SusTask) (d : ThreadState) : Nat → ThreadState
  | 0 => d
  | n + 1 => leaveOnce t (leaveN t d n)

/-- Claim C1: for every driver and every single StopReason evaluation,
whatever combination of pending flags holds, the resolved StopReason is
the highest-priority pending action: a terminate request yields
`kTerminate` (or `kAlreadyTerminated` once it took visible effect) even if
pause and yield are also pending; a pause request with no terminate
pending yields `kPause` even if yield is also pending; a yield flag or
exceeded CPU budget alone yields `kYield`; with no flag pending the result
is `kNone`. -/
theorem c1_stop_reason_priority
    (dt tr pr yf cb : Bool) :
    (dt = true → shouldStop dt tr pr yf cb = .kAlreadyTerminated) ∧
    (dt = false → tr = true → shouldStop dt tr pr yf cb = .kTerminate) ∧
    (dt = false → tr = false → pr = true →
      shouldStop dt tr pr yf cb = .kPause) ∧
    (dt = false → tr = false → pr = false → (yf = true ∨ cb = true) →
      shouldStop dt tr pr yf cb = .kYield) ∧
    (dt = false → tr = false → pr = false → yf = false → cb = false →
      shouldStop dt tr pr yf cb = .kNone) := by
  cases dt <;> cases tr <;> cases pr <;> cases yf <;> cases cb <;>
    simp [shouldStop]

/-- Witness for C1: a terminate request dominates simultaneously pending
pause and yield flags, a pause dominates a pending yield, a yield alone
yields, and no pending flag resolves to `kNone`, each checked at a
concrete flag combination through `c1_stop_reason_priority`. -/
theorem c1_stop_reason_priority_witness :
    shouldStop false true true true true = .kTerminate ∧
    shouldStop true true true true true = .kAlreadyTerminated ∧
    shouldStop false false true true true = .kPause ∧
    shouldStop false false false true false = .kYield ∧
    shouldStop false false false false false = .kNone :=
  ⟨(c1_stop_reason_priority false true true true true).2.1 rfl rfl,
   (c1_stop_reason_priority true true true true true).1 rfl,
   (c1_stop_reason_priority false false true true true).2.2.1 rfl rfl rfl,
   (c1_stop_reason_priority false false false true false).2.2.2.1 rfl rfl rfl
     (Or.inl rfl),
   (c1_stop_reason_priority false false false false false).2.2.2.2
     rfl rfl rfl rfl rfl⟩

/-- Characterization of a returning leave re-check: it observed no active
pause, decremented the depth, cleared the observable flag exactly at depth
zero, and re-evaluated the reason against the terminate flags it saw. -/
theorem leaveSuspendedStep_some (t : SusTask) (d : ThreadState)
    (r : StopReason × ThreadState) (h : leaveSuspendedStep t d = some r) :
    t.pauseRequested = false ∧
    r.1 = (if d.isTerminated || t.terminateRequested then
      StopReason.kAlreadyTerminated else StopReason.kNone) ∧
    r.2.numSuspensions = d.numSuspensions - 1 ∧
    r.2.isSuspended = decide (d.numSuspensions - 1 ≠ 0) ∧
    r.2.isTerminated = (d.isTerminated || t.terminateRequested) := by
  obtain ⟨r1, r2⟩ := r
  cases hp : t.pauseRequested <;>
    cases hdt : d.isTerminated <;>
      cases htr : t.terminateRequested <;>
        simp only [leaveSuspendedStep, hp, hdt, htr, Bool.false_eq_true,
          if_false, if_true, Bool.true_eq_false, Option.some.injEq,
          Prod.mk.injEq, reduceCtorEq] at h <;>
        · obtain ⟨h1, h2⟩ := h
          subst h1
          subst h2
          simp [hdt, htr]

/-- A leave re-check that observes no active pause returns. -/
theorem leaveSuspendedStep_not_paused (t : SusTask) (d : ThreadState)
    (hp : t.pauseRequested = false) :
    (leaveSuspendedStep t d).isSome = true := by
  cases hdt : d.isTerminated <;> cases htr : t.terminateRequested <;>
    simp [leaveSuspendedStep, hp, hdt, htr]

/-- A leave against an un-paused task control state decrements the depth,
clears the observable flag exactly at depth zero, and records a pending
terminate request. -/
theorem leaveOnce_not_paused (t : SusTask) (d : ThreadState)
    (hp : t.pauseRequested = false) :
    (leaveOnce t d).numSuspensions = d.numSuspensions - 1 ∧
    (leaveOnce t d).isSuspended = decide (d.numSuspensions - 1 ≠ 0) ∧
    (leaveOnce t d).isTerminated = (d.isTerminated || t.terminateRequested) := by
  have hsome := leaveSuspendedStep_not_paused t d hp
  cases hstep : leaveSuspendedStep t d with
  | none => rw [hstep] at hsome; cases hsome
  | some res =>
    obtain ⟨_, _, h3, h4, h5⟩ := leaveSuspendedStep_some t d res hstep
    obtain ⟨r1, r2⟩ := res
    simp only [leaveOnce, hstep]
    exact ⟨h3, h4, h5⟩

/-- Leaving `k ≥ 1` times against a fixed, un-paused task control state
decrements the depth `k` times; the observable suspended flag stays true
exactly while the remaining depth is nonzero. -/
theorem leaveN_spec (t : SusTask) (d : ThreadState) (k : Nat)
    (hp : t.pauseRequested = false) (hk : 1 ≤ k) :
    (leaveN t d k).numSuspensions = d.numSuspensions - k ∧
    (leaveN t d k).isSuspended = decide (d.numSuspensions - k ≠ 0) ∧
    (leaveN t d k).isTerminated = (d.isTerminated || t.terminateRequested) := by
  induction k with
  | zero => omega
  | succ k ih =>
    rcases Nat.eq_or_lt_of_le hk with h1 | h1
    · have hz : k = 0 := by omega
      subst hz
      have h := leaveOnce_not_paused t d hp
      simpa [leaveN] using h
    · have hk1 : 1 ≤ k := by omega
      obtain ⟨h2, h3, h4⟩ := ih hk1
      obtain ⟨g1, g2, g3⟩ := leaveOnce_not_paused t (leaveN t d k) hp
      refine ⟨?_, ?_, ?_⟩
      · rw [leaveN, g1, h2]; omega
      · rw [leaveN, g2, h2, decide_eq_decide]; omega
      · rw [leaveN, g3, h4]
        cases d.isTerminated <;> cases t.terminateRequested <;> rfl

/-- Entering `n` times with no terminate request pending succeeds each
time: the depth grows by `n`, the driver stays un-terminated, and for
`n ≥ 1` the observable suspended flag is set. -/
theorem enterN_spec (t : SusTask) (d : ThreadState) (n : Nat)
    (htr : t.terminateRequested = false) (hterm : d.isTerminated = false) :
    (enterN t d n).numSuspensions = d.numSuspensions + n ∧
    (enterN t d n).isTerminated = false ∧
    (1 ≤ n → (enterN t d n).isSuspended = true) := by
  induction n with
  | zero => simp [enterN, hterm]
  | succ n ih =>
    obtain ⟨h1, h2, _⟩ := ih
    refine ⟨?_, ?_, fun _ => ?_⟩
    · rw [enterN]
      simp only [enterSuspended, h2, htr, Bool.false_eq_true, if_false, h1]
      omega
    · rw [enterN]
      simp only [enterSuspended, h2, htr, Bool.false_eq_true, if_false]
    · rw [enterN]
      simp only [enterSuspended, h2, htr, Bool.false_eq_true, if_false]

/-- Any value a `leaveSuspended` returns after only observing task states
that carry a pending terminate request carries the terminal reason. -/
theorem leaveSuspended_terminated_reason (trace : List SusTask)
    (d : ThreadState) (r : StopReason) (d2 : ThreadState)
    (hterm : ∀ t ∈ trace, t.terminateRequested = true)
    (h : leaveSuspended trace d = some (r, d2)) :
    r = .kAlreadyTerminated := by
  induction trace with
  | nil => simp [leaveSuspended] at h
  | cons t ts ih =>
    cases hstep : leaveSuspendedStep t d with
    | some res =>
      have heq : leaveSuspended (t :: ts) d = some res := by
        rw [leaveSuspended, hstep]
      rw [heq] at h
      obtain ⟨_, hr, _⟩ := leaveSuspendedStep_some t d res hstep
      have ht : t.terminateRequested = true := hterm t (List.mem_cons_self t ts)
      obtain rfl : res = (r, d2) := Option.some.inj h
      rw [ht, Bool.or_true, if_pos rfl] at hr
      exact hr
    | none =>
      have heq : leaveSuspended (t :: ts) d = leaveSuspended ts d := by
        rw [leaveSuspended, hstep]
      rw [heq] at h
      exact ih (fun u hu => hterm u (List.mem_cons_of_mem t hu)) h

/-- Claim C2: if termination (cancel or abort) was requested and fully
processed before `enterSuspended` is called — the driver is already marked
terminated, or the terminate request is pending at entry — then
`enterSuspended` returns `kAlreadyTerminated`, never `kNone`; and if the
driver entered while the task was still running (entry returned `kNone`)
and termination is requested strictly after entry but before
`leaveSuspended` (every task state the leave observes carries the
terminate request), then any value `leaveSuspended` returns carries the
terminal reason `kAlreadyTerminated`, not the stale `kNone` captured at
entry. -/
theorem c2_terminate_race_with_suspension :
    (∀ (t : SusTask) (d : ThreadState),
      d.isTerminated = true ∨ t.terminateRequested = true →
      (enterSuspended t d).1 = .kAlreadyTerminated) ∧
    (∀ (t0 : SusTask) (d : ThreadState) (trace : List SusTask)
        (r : StopReason) (d2 : ThreadState),
      t0.terminateRequested = false → d.isTerminated = false →
      (∀ t ∈ trace, t.terminateRequested = true) →
      leaveSuspended trace (enterSuspended t0 d).2 = some (r, d2) →
      (enterSuspended t0 d).1 = .kNone ∧ r = .kAlreadyTerminated) := by
  constructor
  · intro t d h
    rcases h with h | h
    · simp [enterSuspended, h]
    · cases hdt : d.isTerminated <;> simp [enterSuspended, hdt, h]
  · intro t0 d trace r d2 h0 hd hterm hleave
    refine ⟨by simp [enterSuspended, hd, h0], ?_⟩
    exact leaveSuspended_terminated_reason trace _ r d2 hterm hleave

/-- Witness for C2 at concrete states: a fresh driver entering after a
processed terminate request gets `kAlreadyTerminated`; entering with the
task running gets `kNone`, and the subsequent leave that observes the
terminate request returns `kAlreadyTerminated`. -/
theorem c2_terminate_race_with_suspension_witness :
    (enterSuspended terminatedTask ⟨0, false, false⟩).1 = .kAlreadyTerminated ∧
    (enterSuspended runningTask ⟨0, false, false⟩).1 = .kNone ∧
    (leaveSuspended [terminatedTask]
        (enterSuspended runningTask ⟨0, false, false⟩).2).map Prod.fst =
      some .kAlreadyTerminated := by
  refine ⟨c2_terminate_race_with_suspension.1 terminatedTask ⟨0, false, false⟩
    (Or.inr rfl), ?_, ?_⟩
  · exact (c2_terminate_race_with_suspension.2 runningTask ⟨0, false, false⟩
      [terminatedTask] .kAlreadyTerminated ⟨0, false, true⟩ rfl rfl
      (by decide) (by decide)).1
  · decide

/-- Claim C3: `leaveSuspended` never returns while the task is actively
paused.  Any returned value was produced by a cooperative re-check that
observed no active pause, every earlier re-check having observed the pause
(busy-wait, not a blocking wait); while every re-check observes the pause
the call does not return; and once a re-check observes the pause lifted
the call does return, the reason being re-evaluated at that re-check (the
possibly-updated StopReason). -/
theorem c3_leave_suspended_busy_waits_during_pause
    (trace : List SusTask) (d : ThreadState) :
    (∀ r, leaveSuspended trace d = some r →
      ∃ pre t rest, trace = pre ++ t :: rest ∧
        (∀ u ∈ pre, u.pauseRequested = true) ∧
        t.pauseRequested = false ∧
        leaveSuspendedStep t d = some r) ∧
    ((∀ t ∈ trace, t.pauseRequested = true) → leaveSuspended trace d = none) ∧
    ((∃ t ∈ trace, t.pauseRequested = false) →
      (leaveSuspended trace d).isSome = true) := by
  induction trace with
  | nil => simp [leaveSuspended]
  | cons t ts ih =>
    obtain ⟨ih1, ih2, ih3⟩ := ih
    by_cases hpr : t.pauseRequested = true
    · have hstep : leaveSuspendedStep t d = none := by
        simp [leaveSuspendedStep, hpr]
      have heq : leaveSuspended (t :: ts) d = leaveSuspended ts d := by
        rw [leaveSuspended, hstep]
      refine ⟨?_, ?_, ?_⟩
      · intro r hr
        rw [heq] at hr
        obtain ⟨pre, u, rest, he, hpre, hu, hs⟩ := ih1 r hr
        refine ⟨t :: pre, u, rest, by simp [he], ?_, hu, hs⟩
        intro v hv
        rcases List.mem_cons.mp hv with hv | hv
        · rw [hv]; exact hpr
        · exact hpre v hv
      · intro hall
        rw [heq]
        exact ih2 fun u hu => hall u (List.mem_cons_of_mem t hu)
      · intro hex
        rw [heq]
        obtain ⟨u, hu, hup⟩ := hex
        rcases List.mem_cons.mp hu with hu | hu
        · subst hu; rw [hup] at hpr; cases hpr
        · exact ih3 ⟨u, hu, hup⟩
    · simp only [Bool.not_eq_true] at hpr
      have hsome := leaveSuspendedStep_not_paused t d hpr
      cases hstep : leaveSuspendedStep t d with
      | none => rw [hstep] at hsome; cases hsome
      | some res =>
        have heq : leaveSuspended (t :: ts) d = some res := by
          rw [leaveSuspended, hstep]
        refine ⟨?_, ?_, ?_⟩
        · intro r hr
          rw [heq] at hr
          obtain rfl : res = r := Option.some.inj hr
          exact ⟨[], t, ts, rfl, by simp, hpr, hstep⟩
        · intro hall
          rw [hall t (List.mem_cons_self t ts)] at hpr
          cases hpr
        · intro _
          rw [heq]
          rfl

/-- Witness for C3 at a concrete trace: with the first two re-checks
observing an active pause and the third observing it lifted (a terminate
request now pending), the returned value comes from the third re-check;
and while every re-check observes the pause the call keeps busy-waiting. -/
theorem c3_leave_suspended_busy_waits_during_pause_witness :
    (∃ pre t rest,
      ([⟨true, false⟩, ⟨true, true⟩, ⟨false, true⟩] : List SusTask) =
        pre ++ t :: rest ∧
      (∀ u ∈ pre, u.pauseRequested = true) ∧
      t.pauseRequested = false ∧
      leaveSuspendedStep t ⟨1, true, false⟩ =
        some (.kAlreadyTerminated, ⟨0, false, true⟩)) ∧
    leaveSuspended [⟨true, false⟩, ⟨true, true⟩] ⟨1, true, false⟩ = none := by
  constructor
  · exact (c3_leave_suspended_busy_waits_during_pause
      [⟨true, false⟩, ⟨true, true⟩, ⟨false, true⟩] ⟨1, true, false⟩).1
      (.kAlreadyTerminated, ⟨0, false, true⟩) (by decide)
  · exact (c3_leave_suspended_busy_waits_during_pause
      [⟨true, false⟩, ⟨true, true⟩] ⟨1, true, false⟩).2.1 (by decide)

/-- Claim C4: suspension sections nest by the depth counter.  For every
`n ≥ 1`, entering a suspended section `n` times and then leaving `k < n`
times leaves the observable suspended flag true (all inner leaves are
no-ops with respect to the flag); only the `n`-th, outermost leave sets it
false. -/
theorem c4_nested_suspension_depth (n : Nat) (d : ThreadState)
    (hn : 1 ≤ n) (h0 : d.numSuspensions = 0) (ht : d.isTerminated = false) :
    (∀ k, k < n →
      (leaveN runningTask (enterN runningTask d n) k).isSuspended = true) ∧
    (leaveN runningTask (enterN runningTask d n) n).isSuspended = false := by
  obtain ⟨he1, he2, he3⟩ := enterN_spec runningTask d n rfl ht
  constructor
  · intro k hk
    rcases Nat.eq_zero_or_pos k with hz | hpos
    · subst hz
      exact he3 hn
    · obtain ⟨_, h2, _⟩ :=
        leaveN_spec runningTask (enterN runningTask d n) k rfl hpos
      rw [h2, he1, h0, decide_eq_true_eq]
      omega
  · obtain ⟨_, h2, _⟩ :=
      leaveN_spec runningTask (enterN runningTask d n) n rfl hn
    rw [h2, he1, h0]
    simp

/-- Witness for C4 at `n = 3` from a fresh driver state: after entering
three times, the observable suspended flag is still true after zero, one
and two leaves and false only after the third. -/
theorem c4_nested_suspension_depth_witness :
    (leaveN runningTask (enterN runningTask ⟨0, false, false⟩ 3) 0).isSuspended
      = true ∧
    (leaveN runningTask (enterN runningTask ⟨0, false, false⟩ 3) 1).isSuspended
      = true ∧
    (leaveN runningTask (enterN runningTask ⟨0, false, false⟩ 3) 2).isSuspended
      = true ∧
    (leaveN runningTask (enterN runningTask ⟨0, false, false⟩ 3) 3).isSuspended
      = false := by
  have h := c4_nested_suspension_depth 3 ⟨0, false, false⟩ (by decide) rfl rfl
  exact ⟨h.1 0 (by decide), h.1 1 (by decide), h.1 2 (by decide), h.2⟩

/-- Modelled from the spec / the DriverTest scenarios: the scoped test
suspension guard (`TestSuspendedSection`, declared in Driver.h, which is
not part of the sources).  Its constructor faults when `enterSuspended`
reports anything other than `kNone`. -/
def enterSuspendedSection (t : SusTask) (d : ThreadState) :
    Except String ThreadState :=
  match enterSuspended t d with
  | (.kNone, d1) => .ok d1
  | _ => .error "Terminate detected when entering suspended section"

/-- Modelled from the spec / the DriverTest scenarios: the destructor of
the scoped test suspension guard calls `leaveSuspended` and merely logs a
non-`kNone` reason: it never faults, whatever the reason (a still
busy-waiting re-check simply retries and is not a fault either). -/
def leaveSuspendedSection (t : SusTask) (d : ThreadState) :
    Except String (StopReason × ThreadState) :=
  match leaveSuspendedStep t d with
  | some r => .ok r
  | none => .ok (.kNone, d)

/-- Leaving a suspended section with a terminate request pending and no
pause completes normally: the guard returns the terminal reason together
with the decremented state, and never faults. -/
theorem leaveSuspendedSection_terminated (x : ThreadState) :
    leaveSuspendedSection terminatedTask x =
      Except.ok (StopReason.kAlreadyTerminated, leaveOnce terminatedTask x) := by
  have hsome := leaveSuspendedStep_not_paused terminatedTask x rfl
  cases hstep : leaveSuspendedStep terminatedTask x with
  | none => rw [hstep] at hsome; cases hsome
  | some res =>
    obtain ⟨_, hr, _⟩ := leaveSuspendedStep_some terminatedTask x res hstep
    have ht : terminatedTask.terminateRequested = true := rfl
    rw [ht, Bool.or_true, if_pos rfl] at hr
    obtain ⟨r1, r2⟩ := res
    simp only at hr
    subst hr
    simp [leaveSuspendedSection, leaveOnce, hstep]

/-- Claim C9 (implicit): for a driver already inside a suspended section
(depth `k ≥ 1`) when its task is terminated, leaving never faults: each of
the `k` guard leaves completes normally with the terminal reason, the flag
stays true across the inner leaves, and the outermost (k-th) leave still
clears the suspended flag; whereas entering a new nested suspended section
from within the already-suspended scope after the termination faults. -/
theorem c9_leave_after_terminate_ok_enter_faults
    (d : ThreadState) (k : Nat) (hk : d.numSuspensions = k) (h1 : 1 ≤ k)
    (hs : d.isSuspended = true) :
    (∃ e, enterSuspendedSection terminatedTask d = Except.error e) ∧
    (∀ j, j < k →
      leaveSuspendedSection terminatedTask (leaveN terminatedTask d j) =
        Except.ok (.kAlreadyTerminated, leaveN terminatedTask d (j + 1))) ∧
    (∀ j, j < k → (leaveN terminatedTask d j).isSuspended = true) ∧
    (leaveN terminatedTask d k).isSuspended = false := by
  refine ⟨?_, ?_, ?_, ?_⟩
  · cases hdt : d.isTerminated <;>
      exact ⟨"Terminate detected when entering suspended section",
        by simp [enterSuspendedSection, enterSuspended, hdt, terminatedTask]⟩
  · intro j _
    rw [leaveSuspendedSection_terminated (leaveN terminatedTask d j)]
    rfl
  · intro j hj
    rcases Nat.eq_zero_or_pos j with hz | hpos
    · subst hz
      exact hs
    · obtain ⟨_, h2, _⟩ := leaveN_spec terminatedTask d j rfl hpos
      rw [h2, hk, decide_eq_true_eq]
      omega
  · obtain ⟨_, h2, _⟩ := leaveN_spec terminatedTask d k rfl h1
    rw [h2, hk]
    simp

/-- Witness for C9 at a driver two levels deep in suspension: after the
task terminates, a further guarded enter faults, both guard leaves
complete normally with the terminal reason, the flag stays true after the
inner leave and is cleared by the outer one. -/
theorem c9_leave_after_terminate_ok_enter_faults_witness :
    (∃ e, enterSuspendedSection terminatedTask ⟨2, true, false⟩ =
      Except.error e) ∧
    leaveSuspendedSection terminatedTask ⟨2, true, false⟩ =
      Except.ok (.kAlreadyTerminated, leaveN terminatedTask ⟨2, true, false⟩ 1) ∧
    (leaveN terminatedTask ⟨2, true, false⟩ 1).isSuspended = true ∧
    (leaveN terminatedTask ⟨2, true, false⟩ 2).isSuspended = false := by
  have h := c9_leave_after_terminate_ok_enter_faults ⟨2, true, false⟩ 2
    rfl (by decide) rfl
  refine ⟨h.1, ?_, h.2.2.1 1 (by decide), h.2.2.2⟩
  have h0 := h.2.1 0 (by decide)
  simpa [leaveN] using h0

/-- Modelled from the spec (§3, §4.4): one spill statistics snapshot
(`common::SpillStats`; SpillStats.h is not part of the sources).  The
counters are the ones exercised field by field in
velox/common/base/tests/SpillStatsTest.cpp, in that order.  Fields are
integers: snapshots hold non-negative monotonic accumulators, and a
subtraction result may hold negative fields (spec §4.4). -/
structure SpillStats where
  spillRuns : Int
  spilledInputBytes : Int
  spilledBytes : Int
  spilledRows : Int
  spilledPartitions : Int
  spilledFiles : Int
  spillFillTimeNanos : Int
  spillSortTimeNanos : Int
  spillExtractVectorTimeNanos : Int
  spillSerializationTimeNanos : Int
  spillWrites : Int
  spillFlushTimeNanos : Int
  spillWriteTimeNanos : Int
  spillMaxLevelExceededCount : Int
  spillReadBytes : Int
  spillReads : Int
  spillReadTimeNanos : Int
  spillDeserializationTimeNanos : Int
  deriving DecidableEq, Repr

/-- The counters of a snapshot, as the list the comparison operators walk
over. -/
def SpillStats.fieldsOf (s : SpillStats) : List Int :=
  [s.spillRuns, s.spilledInputBytes, s.spilledBytes, s.spilledRows,
   s.spilledPartitions, s.spilledFiles, s.spillFillTimeNanos,
   s.spillSortTimeNanos, s.spillExtractVectorTimeNanos,
   s.spillSerializationTimeNanos, s.spillWrites, s.spillFlushTimeNanos,
   s.spillWriteTimeNanos, s.spillMaxLevelExceededCount, s.spillReadBytes,
   s.spillReads, s.spillReadTimeNanos, s.spillDeserializationTimeNanos]

/-- How many counters of `a` are strictly below the matching counter of
`b`. -/
def SpillStats.ltCount (a b : SpillStats) : Nat :=
  (List.zip a.fieldsOf b.fieldsOf).countP fun p => decide (p.1 < p.2)

/-- How many counters of `a` are strictly above the matching counter of
`b`. -/
def SpillStats.gtCount (a b : SpillStats) : Nat :=
  (List.zip a.fieldsOf b.fieldsOf).countP fun p => decide (p.2 < p.1)

/-- The fault raised when counters of the two snapshots move in mixed
directions. -/
def spillStatsComparisonFault : String :=
  "mixed-direction spill stats comparison"

/-- Modelled from the spec (§4.4): the relational comparators of
`common::SpillStats` count the per-counter directions and fault loudly
(VELOX_CHECK) when both a strictly-smaller and a strictly-greater counter
exist; otherwise `a < b` holds when some counter strictly decreased
(validated by SpillStatsTest.spillStats). -/
def SpillStats.lt (a b : SpillStats) : Except String Bool :=
  if a.ltCount b ≠ 0 ∧ a.gtCount b ≠ 0 then .error spillStatsComparisonFault
  else .ok (decide (a.ltCount b ≠ 0))

/-- The comparator `a > b`, under the same mixed-direction fault gate. -/
def SpillStats.gt (a b : SpillStats) : Except String Bool :=
  if a.ltCount b ≠ 0 ∧ a.gtCount b ≠ 0 then .error spillStatsComparisonFault
  else .ok (decide (a.gtCount b ≠ 0))

/-- The comparator `a <= b`, under the same mixed-direction fault gate. -/
def SpillStats.le (a b : SpillStats) : Except String Bool :=
  if a.ltCount b ≠ 0 ∧ a.gtCount b ≠ 0 then .error spillStatsComparisonFault
  else .ok (decide (a.gtCount b = 0))

/-- The comparator `a >= b`, under the same mixed-direction fault gate. -/
def SpillStats.ge (a b : SpillStats) : Except String Bool :=
  if a.ltCount b ≠ 0 ∧ a.gtCount b ≠ 0 then .error spillStatsComparisonFault
  else .ok (decide (a.ltCount b = 0))

/-- Modelled from the spec / SpillStatsTest: `operator==` compares all
counters elementwise and is total — it never faults, also on
mixed-direction pairs. -/
def SpillStats.eq (a b : SpillStats) : Bool :=
  decide (a.fieldsOf = b.fieldsOf)

/-- The total inequality, negation of the total equality. -/
def SpillStats.ne (a b : SpillStats) : Bool :=
  !(SpillStats.eq a b)

/-- Modelled from the spec (§4.4): `operator-` is elementwise and always
defined; a difference field may be negative. -/
def SpillStats.sub (a b : SpillStats) : SpillStats :=
  ⟨a.spillRuns - b.spillRuns,
   a.spilledInputBytes - b.spilledInputBytes,
   a.spilledBytes - b.spilledBytes,
   a.spilledRows - b.spilledRows,
   a.spilledPartitions - b.spilledPartitions,
   a.spilledFiles - b.spilledFiles,
   a.spillFillTimeNanos - b.spillFillTimeNanos,
   a.spillSortTimeNanos - b.spillSortTimeNanos,
   a.spillExtractVectorTimeNanos - b.spillExtractVectorTimeNanos,
   a.spillSerializationTimeNanos - b.spillSerializationTimeNanos,
   a.spillWrites - b.spillWrites,
   a.spillFlushTimeNanos - b.spillFlushTimeNanos,
   a.spillWriteTimeNanos - b.spillWriteTimeNanos,
   a.spillMaxLevelExceededCount - b.spillMaxLevelExceededCount,
   a.spillReadBytes - b.spillReadBytes,
   a.spillReads - b.spillReads,
   a.spillReadTimeNanos - b.spillReadTimeNanos,
   a.spillDeserializationTimeNanos - b.spillDeserializationTimeNanos⟩

/-- No counted strictly-decreasing pair exists exactly when the left list
is pointwise at least the right one. -/
theorem countP_lt_zip_eq_zero_iff {as bs : List Int}
    (h : as.length = bs.length) :
    (List.zip as bs).countP (fun p => decide (p.1 < p.2)) = 0 ↔
      List.Forall₂ (fun x y => y ≤ x) as bs := by
  induction as generalizing bs with
  | nil =>
    cases bs with
    | nil => simp
    | cons b bs => simp at h
  | cons a as ih =>
    cases bs with
    | nil => simp at h
    | cons b bs =>
      have hlen : as.length = bs.length := by simpa using h
      simp only [List.zip_cons_cons, List.countP_cons, List.forall₂_cons]
      rw [Nat.add_eq_zero, ih hlen]
      by_cases hab : a < b
      · have hnab : ¬ b ≤ a := by omega
        simp [hab, hnab]
      · have hba : b ≤ a := by omega
        simp [hab, hba]

/-- No counted strictly-increasing pair exists exactly when the left list
is pointwise at most the right one. -/
theorem countP_gt_zip_eq_zero_iff {as bs : List Int}
    (h : as.length = bs.length) :
    (List.zip as bs).countP (fun p => decide (p.2 < p.1)) = 0 ↔
      List.Forall₂ (fun x y => x ≤ y) as bs := by
  induction as generalizing bs with
  | nil =>
    cases bs with
    | nil => simp
    | cons b bs => simp at h
  | cons a as ih =>
    cases bs with
    | nil => simp at h
    | cons b bs =>
      have hlen : as.length = bs.length := by simpa using h
      simp only [List.zip_cons_cons, List.countP_cons, List.forall₂_cons]
      rw [Nat.add_eq_zero, ih hlen]
      by_cases hab : b < a
      · have hnab : ¬ a ≤ b := by omega
        simp [hab, hnab]
      · have hba : a ≤ b := by omega
        simp [hab, hba]

/-- Under a pointwise-at-most hypothesis, a strictly-decreasing pair is
counted exactly when the lists differ. -/
theorem countP_lt_zip_ne_zero_iff_of_le {as bs : List Int}
    (h : List.Forall₂ (fun x y => x ≤ y) as bs) :
    (List.zip as bs).countP (fun p => decide (p.1 < p.2)) ≠ 0 ↔ as ≠ bs := by
  induction h with
  | nil => simp
  | @cons a b as bs hab htail ih =>
    simp only [List.zip_cons_cons, List.countP_cons, ne_eq, List.cons.injEq,
      not_and]
    rcases lt_or_eq_of_le hab with hlt | heq
    · have hne : ¬ a = b := ne_of_lt hlt
      simp [hlt, hne]
    · subst heq
      simp only [decide_eq_true_eq, lt_irrefl, if_false]
      simpa using ih

/-- Under a pointwise-at-least hypothesis, a strictly-increasing pair is
counted exactly when the lists differ. -/
theorem countP_gt_zip_ne_zero_iff_of_ge {as bs : List Int}
    (h : List.Forall₂ (fun x y => y ≤ x) as bs) :
    (List.zip as bs).countP (fun p => decide (p.2 < p.1)) ≠ 0 ↔ as ≠ bs := by
  induction h with
  | nil => simp
  | @cons a b as bs hab htail ih =>
    simp only [List.zip_cons_cons, List.countP_cons, ne_eq, List.cons.injEq,
      not_and]
    rcases lt_or_eq_of_le hab with hlt | heq
    · have hne : ¬ a = b := (ne_of_lt hlt).symm
      simp [hlt, hne]
    · subst heq
      simp only [decide_eq_true_eq, lt_irrefl, if_false]
      simpa using ih

/-- The two field lists always have the same length. -/
theorem SpillStats.fieldsOf_length (a b : SpillStats) :
    a.fieldsOf.length = b.fieldsOf.length := rfl

/-- The first snapshot populated by SpillStatsTest.spillStats. -/
def testStats1 : SpillStats :=
  ⟨100, 2048, 1024, 1023, 1024, 1023, 1023, 1023, 1023, 1023, 1023, 1023,
   1023, 3, 1024, 10, 100, 100⟩

/-- The second snapshot populated by SpillStatsTest.spillStats. -/
def testStats2 : SpillStats :=
  ⟨100, 2048, 1024, 1031, 1025, 1026, 1030, 1029, 1033, 1032, 1028, 1027,
   1026, 4, 2048, 10, 100, 100⟩

/-- The first snapshot after the mutation at SpillStatsTest.cpp lines
114-116 (`spilledInputBytes = 2060`, `spilledBytes = 1030`,
`spillReadBytes = 4096`), which makes its counters move in mixed
directions against the second snapshot. -/
def testStats1Mixed : SpillStats :=
  ⟨100, 2060, 1030, 1023, 1024, 1023, 1023, 1023, 1023, 1023, 1023, 1023,
   1023, 3, 4096, 10, 100, 100⟩

/-- Claim C5: the relational comparators of SpillStats are defined only on
same-direction pairs: when some counter strictly decreases and another
strictly increases, all four comparators fault loudly instead of returning
a boolean; on a pointwise-ordered pair each comparator is defined and
returns the elementwise fact (`<`/`>` additionally demanding a strict
difference, `<=`/`>=` holding pointwise).  Subtraction is defined for
every pair — also mixed-direction ones — produces exactly the elementwise
differences, possibly negative fields, and never faults. -/
theorem c5_spillstats_comparators_and_sub (a b : SpillStats) :
    ((¬ List.Forall₂ (fun x y => x ≤ y) a.fieldsOf b.fieldsOf ∧
      ¬ List.Forall₂ (fun x y => y ≤ x) a.fieldsOf b.fieldsOf) →
      a.lt b = .error spillStatsComparisonFault ∧
      a.le b = .error spillStatsComparisonFault ∧
      a.gt b = .error spillStatsComparisonFault ∧
      a.ge b = .error spillStatsComparisonFault) ∧
    (List.Forall₂ (fun x y => x ≤ y) a.fieldsOf b.fieldsOf →
      a.lt b = .ok (decide (a.fieldsOf ≠ b.fieldsOf)) ∧
      a.le b = .ok true ∧
      a.gt b = .ok false ∧
      a.ge b = .ok (decide (a.fieldsOf = b.fieldsOf))) ∧
    (List.Forall₂ (fun x y => y ≤ x) a.fieldsOf b.fieldsOf →
      a.gt b = .ok (decide (a.fieldsOf ≠ b.fieldsOf)) ∧
      a.ge b = .ok true ∧
      a.lt b = .ok false ∧
      a.le b = .ok (decide (a.fieldsOf = b.fieldsOf))) ∧
    (a.sub b).fieldsOf =
      List.zipWith (fun x y => x - y) a.fieldsOf b.fieldsOf := by
  have hlen := SpillStats.fieldsOf_length a b
  refine ⟨?_, ?_, ?_, rfl⟩
  · intro ⟨h1, h2⟩
    have hgt : a.gtCount b ≠ 0 := by
      rw [SpillStats.gtCount, ne_eq, countP_gt_zip_eq_zero_iff hlen]
      exact h1
    have hlt : a.ltCount b ≠ 0 := by
      rw [SpillStats.ltCount, ne_eq, countP_lt_zip_eq_zero_iff hlen]
      exact h2
    refine ⟨?_, ?_, ?_, ?_⟩ <;>
      simp [SpillStats.lt, SpillStats.le, SpillStats.gt, SpillStats.ge,
        hlt, hgt]
  · intro h
    have hgt : a.gtCount b = 0 := by
      rw [SpillStats.gtCount, countP_gt_zip_eq_zero_iff hlen]
      exact h
    have hlt : a.ltCount b ≠ 0 ↔ a.fieldsOf ≠ b.fieldsOf :=
      countP_lt_zip_ne_zero_iff_of_le h
    have hlt0 : a.ltCount b = 0 ↔ a.fieldsOf = b.fieldsOf :=
      not_iff_not.mp hlt
    have hgate : ¬ (a.ltCount b ≠ 0 ∧ a.gtCount b ≠ 0) := by
      simp [hgt]
    refine ⟨?_, ?_, ?_, ?_⟩
    · rw [SpillStats.lt, if_neg hgate]
      exact congrArg Except.ok (decide_eq_decide.mpr hlt)
    · rw [SpillStats.le, if_neg hgate]
      exact congrArg Except.ok (by simp [hgt])
    · rw [SpillStats.gt, if_neg hgate]
      exact congrArg Except.ok (by simp [hgt])
    · rw [SpillStats.ge, if_neg hgate]
      exact congrArg Except.ok (decide_eq_decide.mpr hlt0)
  · intro h
    have hlt : a.ltCount b = 0 := by
      rw [SpillStats.ltCount, countP_lt_zip_eq_zero_iff hlen]
      exact h
    have hgt : a.gtCount b ≠ 0 ↔ a.fieldsOf ≠ b.fieldsOf :=
      countP_gt_zip_ne_zero_iff_of_ge h
    have hgt0 : a.gtCount b = 0 ↔ a.fieldsOf = b.fieldsOf :=
      not_iff_not.mp hgt
    have hgate : ¬ (a.ltCount b ≠ 0 ∧ a.gtCount b ≠ 0) := by
      simp [hlt]
    refine ⟨?_, ?_, ?_, ?_⟩
    · rw [SpillStats.gt, if_neg hgate]
      exact congrArg Except.ok (decide_eq_decide.mpr hgt)
    · rw [SpillStats.ge, if_neg hgate]
      exact congrArg Except.ok (by simp [hlt])
    · rw [SpillStats.lt, if_neg hgate]
      exact congrArg Except.ok (by simp [hlt])
    · rw [SpillStats.le, if_neg hgate]
      exact congrArg Except.ok (decide_eq_decide.mpr hgt0)

/-- Witness for C5 at the SpillStatsTest snapshots: the first snapshot is
pointwise at most the second, so `<` and `<=` hold and `>` and `>=` are
defined and false; the mutated first snapshot compares in mixed directions
against the second, so the relational comparators fault; subtraction is
defined in both directions and elementwise, with a negative field on the
reversed pair. -/
theorem c5_spillstats_comparators_and_sub_witness :
    testStats1.lt testStats2 = .ok true ∧
    testStats1.le testStats2 = .ok true ∧
    testStats1.gt testStats2 = .ok false ∧
    testStats1.ge testStats2 = .ok false ∧
    testStats1Mixed.lt testStats2 = .error spillStatsComparisonFault ∧
    testStats1Mixed.ge testStats2 = .error spillStatsComparisonFault ∧
    (testStats2.sub testStats1).spilledPartitions = 1 ∧
    (testStats1.sub testStats2).spilledPartitions = -1 ∧
    (testStats1Mixed.sub testStats2).fieldsOf =
      List.zipWith (fun x y => x - y) testStats1Mixed.fieldsOf
        testStats2.fieldsOf := by
  have hle := (c5_spillstats_comparators_and_sub testStats1 testStats2).2.1
    (by decide)
  have hmix := (c5_spillstats_comparators_and_sub testStats1Mixed testStats2).1
    (by decide)
  have hsub :=
    (c5_spillstats_comparators_and_sub testStats1Mixed testStats2).2.2.2
  exact ⟨hle.1.trans (congrArg Except.ok (by decide)), hle.2.1, hle.2.2.1,
    (hle.2.2.2).trans (congrArg Except.ok (by decide)), hmix.1, hmix.2.2.2,
    by decide, by decide, hsub⟩

/-- Claim C10 (implicit): SpillStats equality and inequality are total:
`==` returns exactly the elementwise equality of all counters and `!=` its
negation, for every pair of snapshots — including mixed-direction pairs,
exactly the ones on which every relational comparator faults, where the
equality comparison still returns a boolean (false) instead of
faulting. -/
theorem c10_spillstats_equality_total (a b : SpillStats) :
    (SpillStats.eq a b = true ↔ a.fieldsOf = b.fieldsOf) ∧
    (SpillStats.ne a b = true ↔ a.fieldsOf ≠ b.fieldsOf) ∧
    ((¬ List.Forall₂ (fun x y => x ≤ y) a.fieldsOf b.fieldsOf ∧
      ¬ List.Forall₂ (fun x y => y ≤ x) a.fieldsOf b.fieldsOf) →
      a.lt b = .error spillStatsComparisonFault ∧
      a.ge b = .error spillStatsComparisonFault ∧
      SpillStats.eq a b = false ∧ SpillStats.ne a b = true) := by
  refine ⟨by simp [SpillStats.eq], by simp [SpillStats.ne, SpillStats.eq], ?_⟩
  intro ⟨h1, h2⟩
  have hlen := SpillStats.fieldsOf_length a b
  have hgt : a.gtCount b ≠ 0 := by
    rw [SpillStats.gtCount, ne_eq, countP_gt_zip_eq_zero_iff hlen]
    exact h1
  have hlt : a.ltCount b ≠ 0 := by
    rw [SpillStats.ltCount, ne_eq, countP_lt_zip_eq_zero_iff hlen]
    exact h2
  have hne : a.fieldsOf ≠ b.fieldsOf := by
    intro he
    apply h1
    rw [he]
    exact List.forall₂_same.mpr fun x _ => le_refl x
  refine ⟨?_, ?_, ?_, ?_⟩ <;>
    simp [SpillStats.lt, SpillStats.ge, SpillStats.eq, SpillStats.ne,
      hlt, hgt, hne]

/-- Witness for C10 at the SpillStatsTest snapshots: on the
mixed-direction pair the relational comparators fault while `==` still
returns false and `!=` true; on equal snapshots `==` returns true. -/
theorem c10_spillstats_equality_total_witness :
    testStats1Mixed.lt testStats2 = .error spillStatsComparisonFault ∧
    SpillStats.eq testStats1Mixed testStats2 = false ∧
    SpillStats.ne testStats1Mixed testStats2 = true ∧
    SpillStats.eq testStats1 testStats1 = true := by
  have h := (c10_spillstats_equality_total testStats1Mixed testStats2).2.2
    ⟨by decide, by decide⟩
  exact ⟨h.1, h.2.2.1, h.2.2.2,
    (c10_spillstats_equality_total testStats1 testStats1).1.mpr rfl⟩

/-- The operator methods the driver loop invokes (spec §4.2, §6). -/
inductive OpMethod where
  | isBlocked
  | needsInput
  | addInput
  | noMoreInput
  | getOutput
  deriving DecidableEq, Repr

/-- The method name used in the failure context message. -/
def OpMethod.methodName : OpMethod → String
  | .isBlocked => "isBlocked"
  | .needsInput => "needsInput"
  | .addInput => "addInput"
  | .noMoreInput => "noMoreInput"
  | .getOutput => "getOutput"

/-- Identity of one operator in a pipeline: its registered name and the id
of the plan node it was translated from. -/
structure OperatorInfo where
  name : String
  planNodeId : String
  deriving DecidableEq, Repr

/-- A task failure produced at the driver boundary: the failing operator's
name and plan node id, the method that threw, and the original cause. -/
structure TaggedFailure where
  opName : String
  planNodeId : String
  method : OpMethod
  cause : String
  deriving DecidableEq, Repr

/-- The context message attached to an operator failure, as asserted by
DriverTest nonVeloxOperatorException. -/
def TaggedFailure.contextMessage (e : TaggedFailure) : String :=
  "Operator::" ++ e.method.methodName ++ " failed for [operator: " ++
    e.opName ++ ", plan node ID: " ++ e.planNodeId ++ "]"

/-- Modelled from the spec (§4.2, §7): the driver boundary around one
operator method call (Driver.cpp is not part of the sources).  The callee
either produces a value or throws; a thrown exception — including a
foreign, non-Velox one, its payload being an arbitrary string — is caught
at the boundary and re-raised as a task failure tagged with the operator's
name, plan node id and method. -/
def callOperator {α : Type} (op : OperatorInfo) (m : OpMethod)
    (call : Except String α) : Except TaggedFailure α :=
  match call with
  | .ok v => .ok v
  | .error cause => .error ⟨op.name, op.planNodeId, m, cause⟩

/-- The task-level failure bookkeeping a driver failure touches. -/
structure TaskFailState where
  state : TaskState
  latchedError : Option TaggedFailure
  numRunningDrivers : Nat
  deriving DecidableEq, Repr

/-- Modelled from the spec (§4.2, §7): a driver hitting an operator
failure unregisters from the task and sets the task's error: the task
moves to Failed from Running, the first failure wins (a later failure
neither replaces the latched error nor changes the terminal state), and
the failing driver is removed from the running-driver count. -/
def recordDriverFailure (t : TaskFailState) (e : TaggedFailure) :
    TaskFailState :=
  { state := if t.state = .kRunning then .kFailed else t.state,
    latchedError :=
      match t.latchedError with
      | none => some e
      | some e0 => some e0,
    numRunningDrivers := t.numRunningDrivers - 1 }

/-- Claim C6: for every operator method call made by the driver loop
(isBlocked, needsInput, addInput, noMoreInput, getOutput), any exception
escaping the call — its cause an arbitrary string, covering foreign
non-Velox exception payloads — is caught at the driver boundary and
re-raised as a task failure tagged with the failing operator's name, plan
node id and method (the original cause preserved); a succeeding call
passes through untouched; the failing driver unregisters and the task
moves from Running to Failed with the failure latched; and the first
failure wins: a second driver failure changes neither the latched error
nor the terminal state. -/
theorem c6_operator_exception_normalized :
    (∀ (op : OperatorInfo) (m : OpMethod) (cause : String),
      callOperator op m (Except.error cause : Except String Unit) =
        Except.error ⟨op.name, op.planNodeId, m, cause⟩) ∧
    (∀ (op : OperatorInfo) (m : OpMethod) (v : Nat),
      callOperator op m (Except.ok v) = Except.ok v) ∧
    (∀ (t : TaskFailState) (e : TaggedFailure),
      t.state = .kRunning → t.latchedError = none →
      (recordDriverFailure t e).state = .kFailed ∧
      (recordDriverFailure t e).latchedError = some e ∧
      (recordDriverFailure t e).numRunningDrivers =
        t.numRunningDrivers - 1) ∧
    (∀ (t : TaskFailState) (e1 e2 : TaggedFailure),
      t.state = .kFailed → t.latchedError = some e1 →
      (recordDriverFailure t e2).latchedError = some e1 ∧
      (recordDriverFailure t e2).state = .kFailed) := by
  refine ⟨fun op m cause => rfl, fun op m v => rfl, ?_, ?_⟩
  · intro t e h1 h2
    refine ⟨?_, ?_, rfl⟩ <;> simp [recordDriverFailure, h1, h2]
  · intro t e1 e2 h1 h2
    refine ⟨?_, ?_⟩ <;> simp [recordDriverFailure, h1, h2]

/-- Witness for C6 at the DriverTest nonVeloxOperatorException scenario: a
foreign exception escaping `Throw::getOutput` (plan node 1) is normalized
into the tagged failure whose context message is the one the test expects;
recording it on a running task yields a Failed task with the error
latched, and a second failure does not replace it. -/
theorem c6_operator_exception_normalized_witness :
    callOperator ⟨"Throw", "1"⟩ .getOutput
        (Except.error "non-velox exception" : Except String Unit) =
      Except.error ⟨"Throw", "1", .getOutput, "non-velox exception"⟩ ∧
    (TaggedFailure.contextMessage
        ⟨"Throw", "1", .getOutput, "non-velox exception"⟩ =
      "Operator::getOutput failed for [operator: Throw, plan node ID: 1]") ∧
    (recordDriverFailure ⟨.kRunning, none, 1⟩
        ⟨"Throw", "1", .getOutput, "non-velox exception"⟩).state =
      .kFailed ∧
    (recordDriverFailure
        (recordDriverFailure ⟨.kRunning, none, 2⟩
          ⟨"Throw", "1", .getOutput, "non-velox exception"⟩)
        ⟨"Values", "0", .isBlocked, "second failure"⟩).latchedError =
      some ⟨"Throw", "1", .getOutput, "non-velox exception"⟩ := by
  refine ⟨c6_operator_exception_normalized.1 ⟨"Throw", "1"⟩ .getOutput
    "non-velox exception", rfl, ?_, ?_⟩
  · exact (c6_operator_exception_normalized.2.2.1 ⟨.kRunning, none, 1⟩
      ⟨"Throw", "1", .getOutput, "non-velox exception"⟩ rfl rfl).1
  · exact (c6_operator_exception_normalized.2.2.2
      (recordDriverFailure ⟨.kRunning, none, 2⟩
        ⟨"Throw", "1", .getOutput, "non-velox exception"⟩)
      ⟨"Throw", "1", .getOutput, "non-velox exception"⟩
      ⟨"Values", "0", .isBlocked, "second failure"⟩ rfl rfl).1

/-- Spill configuration fields used by RowNumber.cpp.  Modelled from the
spec (§4.4): `common::SpillConfig` itself (SpillConfig.h) is not part of
the sources; `startPartitionBit`, `numPartitionBits` and the
`maxSpillLevel` bound (−1 meaning unbounded) follow the spec's
partitioning contract. -/
structure SpillConfig where
  startPartitionBit : Nat
  numPartitionBits : Nat
  maxSpillLevel : Int
  deriving DecidableEq, Repr

/-- Modelled from the spec (§4.4): the recursion depth a partition start
bit offset corresponds to. -/
def SpillConfig.spillLevel (c : SpillConfig) (startBitOffset : Nat) : Nat :=
  (startBitOffset - c.startPartitionBit) / c.numPartitionBits

/-- Modelled from the spec (§4.4): whether a partition start bit offset
exceeds the configured maximum spill level (`maxSpillLevel = -1` disables
the bound). -/
def SpillConfig.exceedSpillLevelLimit (c : SpillConfig)
    (startBitOffset : Nat) : Bool :=
  if c.maxSpillLevel = -1 then false
  else decide ((c.spillLevel startBitOffset : Int) > c.maxSpillLevel)

/-- Modelled from the spec (§3): a spill partition id carries the nesting
level at which the recursive re-split that produced it happened, plus the
partition number. -/
structure SpillPartitionId where
  level : Nat
  index : Nat
  deriving DecidableEq, Repr

/-- Modelled from the spec (§3, §4.4): the hash-bit offset at which a
spill partition id's bit range starts. -/
def partitionBitOffset (id : SpillPartitionId) (startBit numBits : Nat) :
    Nat :=
  startBit + id.level * numBits

/-- Modelled from the spec (§4.4): `HashPartitionFunction` over the bit
range `[startBit, endBit)` of a row's key hash maps the row to one of
`2 ^ (endBit - startBit)` partitions.  Rows are identified with their key;
`hash` is the combined key hash. -/
def spillPartitionOf (hash : Nat → Nat) (bits : Nat × Nat) (row : Nat) :
    Nat :=
  hash row / 2 ^ bits.1 % 2 ^ (bits.2 - bits.1)

/-- The state of a RowNumber operator that the spill logic of
velox/exec/RowNumber.cpp manipulates: the in-memory hash table (key with
its row count), the staged current input, whether the input spiller is set
up and the bit range it was set up with, the per-partition append-only
spill files for input rows and for hash-table rows, the memory
reservation, the current spill partition bit range, the exceeded-limit
flag and the exceeded-limit counter of the spill stats. -/
structure RowNumberState where
  table : List (Nat × Nat)
  input : Option (List Nat)
  inputSpiller : Bool
  inputSpillerBits : Nat × Nat
  spillInputFiles : Nat → List Nat
  spillHashTableFiles : Nat → List (Nat × Nat)
  reservation : Nat
  spillPartitionBits : Nat × Nat
  exceededMaxSpillLevelLimit : Bool
  spillMaxLevelExceededCount : Nat

/-- Embedded from RowNumber.cpp `RowNumber::addInput` (table path):
`groupProbe` inserts previously unseen keys into the table, new groups
being initialised with a zero row count; keys already present are left
unchanged. -/
def insertNewGroups : List (Nat × Nat) → List Nat → List (Nat × Nat)
  | table, [] => table
  | table, k :: ks =>
    if table.any fun kv => kv.1 = k then insertNewGroups table ks
    else insertNewGroups (table ++ [(k, 0)]) ks

/-- Embedded from RowNumber.cpp `RowNumber::spillInput` (lines 463-505):
every row of the batch is assigned its partition by `spillHashFunction_`
(built over the input spiller's bit range) and appended, in input order,
to the spill file of exactly that partition. -/
def RowNumber.spillInput (hash : Nat → Nat) (s : RowNumberState)
    (input : List Nat) : RowNumberState :=
  { s with spillInputFiles := fun p =>
      s.spillInputFiles p ++
        input.filter fun row =>
          spillPartitionOf hash s.inputSpillerBits row = p }

/-- Embedded from RowNumber.cpp `RowNumber::spillHashTable` (lines
398-419): the in-memory partition table rows are spilled to the
hash-table spill files by the current spill partition bit range, the
table is cleared (`table_->clear(true)`), and the memory reservation is
released (`pool()->release()`). -/
def RowNumber.spillHashTable (hash : Nat → Nat) (s : RowNumberState) :
    RowNumberState :=
  { s with
    spillHashTableFiles := fun p =>
      s.spillHashTableFiles p ++
        s.table.filter fun kv =>
          spillPartitionOf hash s.spillPartitionBits kv.1 = p,
    table := [],
    reservation := 0 }

/-- Embedded from RowNumber.cpp `RowNumber::spill` (lines 446-461) with
`RowNumber::setupInputSpiller` (lines 421-444): the hash table is spilled,
the input spiller is set up over the current spill partition bit range,
and any staged input batch is immediately spilled through it. -/
def RowNumber.spill (hash : Nat → Nat) (s : RowNumberState) :
    RowNumberState :=
  let s1 := RowNumber.spillHashTable hash s
  let s2 := { s1 with inputSpiller := true,
                      inputSpillerBits := s1.spillPartitionBits }
  match s2.input with
  | some pending => { RowNumber.spillInput hash s2 pending with input := none }
  | none => s2

/-- The memory-arbitration outcomes one `ensureInputFits` call can
observe (RowNumber.cpp lines 202-238): whether the minimal spillable
reservation and the free row space suffice, whether `maybeReserve`
succeeds and how much it grants, and whether the arbitration triggered by
the reservation attempt spilled this operator itself. -/
structure MemOracle where
  hasMinReservationAndFits : Bool
  reserveSucceeds : Bool
  grantedBytes : Nat
  arbitrationSpillsSelf : Bool
  deriving DecidableEq, Repr

/-- Embedded from RowNumber.cpp `RowNumber::ensureInputFits` (lines
172-244): a no-op when spilling is disabled or an input spiller is already
set up (line 173), or when the table is empty (lines 178-187); otherwise,
if the minimal reservation and free space suffice nothing changes; else a
reservation growth is attempted, during which arbitration may spill this
very operator — in that case the fresh reservation is released at once
(lines 229-237); a failed growth only logs a warning (lines 240-243). -/
def RowNumber.ensureInputFits (hash : Nat → Nat) (o : MemOracle)
    (spillEnabled : Bool) (s : RowNumberState) : RowNumberState :=
  if !spillEnabled || s.inputSpiller then s
  else if s.table.isEmpty then s
  else if o.hasMinReservationAndFits then s
  else
    let s1 := if o.arbitrationSpillsSelf then RowNumber.spill hash s else s
    if o.reserveSucceeds then
      if s1.inputSpiller then { s1 with reservation := 0 }
      else { s1 with reservation := s1.reservation + o.grantedBytes }
    else s1

/-- Embedded from RowNumber.cpp `RowNumber::addInput` (lines 74-97, table
present): after `ensureInputFits`, if an input spiller is set up the batch
is immediately spilled and the call returns without touching the table or
staging the input (lines 80-83); otherwise the batch's new keys are
group-probed into the in-memory table and the batch staged as current
input. -/
def RowNumber.addInput (hash : Nat → Nat) (o : MemOracle)
    (spillEnabled : Bool) (s : RowNumberState) (input : List Nat) :
    RowNumberState :=
  let s1 := RowNumber.ensureInputFits hash o spillEnabled s
  if s1.inputSpiller then RowNumber.spillInput hash s1 input
  else { s1 with table := insertNewGroups s1.table input,
                 input := some input }

/-- Feeding a sequence of input batches, each under its own
memory-arbitration outcome. -/
def RowNumber.addInputs (hash : Nat → Nat)
    (obs : List (MemOracle × List Nat)) (spillEnabled : Bool)
    (s : RowNumberState) : RowNumberState :=
  obs.foldl (fun st ob => RowNumber.addInput hash ob.1 spillEnabled st ob.2) s

/-- Embedded from RowNumber.cpp `RowNumber::setSpillPartitionBits` (lines
521-539): the start bit offset is the configured start partition bit, or,
for a restored partition, that partition's bit offset deepened by
`numPartitionBits`; when the resulting offset exceeds the maximum spill
level the exceeded flag is set and the bit range is left unchanged,
otherwise the flag is cleared and the bit range updated. -/
def RowNumber.setSpillPartitionBits (c : SpillConfig)
    (restored : Option SpillPartitionId) (s : RowNumberState) :
    RowNumberState :=
  let startPartitionBitOffset :=
    match restored with
    | none => c.startPartitionBit
    | some id =>
      partitionBitOffset id c.startPartitionBit c.numPartitionBits +
        c.numPartitionBits
  if c.exceedSpillLevelLimit startPartitionBitOffset then
    { s with exceededMaxSpillLevelLimit := true }
  else
    { s with exceededMaxSpillLevelLimit := false,
             spillPartitionBits :=
               (startPartitionBitOffset,
                startPartitionBitOffset + c.numPartitionBits) }

/-- Embedded from RowNumber.cpp `RowNumber::reclaim` (lines 375-396): the
VELOX_CHECKs on `canReclaim` and on being outside a non-reclaimable
section fault; an empty table means nothing to spill; an exceeded
max-spill-level limit logs a warning, bumps the exceeded counter of the
spill stats and abandons spilling; otherwise the operator spills. -/
def RowNumber.reclaim (hash : Nat → Nat)
    (canReclaim nonReclaimableSection : Bool) (s : RowNumberState) :
    Except String RowNumberState :=
  if !canReclaim then .error "canReclaim check failed"
  else if nonReclaimableSection then
    .error "nonReclaimableSection check failed"
  else if s.table.isEmpty then .ok s
  else if s.exceededMaxSpillLevelLimit then
    .ok { s with
          spillMaxLevelExceededCount := s.spillMaxLevelExceededCount + 1 }
  else .ok (RowNumber.spill hash s)

/-- Once the input spiller is set up, `addInput` bypasses the memory check
entirely and routes the batch straight to `spillInput` (RowNumber.cpp
lines 80-83 with the early return of `ensureInputFits` at line 173). -/
theorem addInput_while_spilling (hash : Nat → Nat) (o : MemOracle)
    (se : Bool) (s : RowNumberState) (input : List Nat)
    (h : s.inputSpiller = true) :
    RowNumber.addInput hash o se s input =
      RowNumber.spillInput hash s input := by
  simp [RowNumber.addInput, RowNumber.ensureInputFits, h]

/-- Feeding any sequence of batches to an operator whose input spiller is
set up leaves the table, the input spiller and its bit range untouched and
appends exactly the rows hashed to each partition, in input order, to that
partition's spill file. -/
theorem addInputs_while_spilling (hash : Nat → Nat)
    (obs : List (MemOracle × List Nat)) (se : Bool) (s : RowNumberState)
    (h : s.inputSpiller = true) :
    (RowNumber.addInputs hash obs se s).inputSpiller = true ∧
    (RowNumber.addInputs hash obs se s).table = s.table ∧
    (RowNumber.addInputs hash obs se s).inputSpillerBits =
      s.inputSpillerBits ∧
    ∀ p, (RowNumber.addInputs hash obs se s).spillInputFiles p =
      s.spillInputFiles p ++
        ((obs.map Prod.snd).flatten.filter fun row =>
          spillPartitionOf hash s.inputSpillerBits row = p) := by
  induction obs generalizing s with
  | nil => simp [RowNumber.addInputs, h]
  | cons ob obs ih =>
    have hstep : RowNumber.addInput hash ob.1 se s ob.2 =
        RowNumber.spillInput hash s ob.2 :=
      addInput_while_spilling hash ob.1 se s ob.2 h
    have hcons : RowNumber.addInputs hash (ob :: obs) se s =
        RowNumber.addInputs hash obs se (RowNumber.spillInput hash s ob.2) := by
      simp [RowNumber.addInputs, hstep]
    have hsp : (RowNumber.spillInput hash s ob.2).inputSpiller = true := h
    obtain ⟨ih1, ih2, ih3, ih4⟩ := ih (RowNumber.spillInput hash s ob.2) hsp
    rw [hcons]
    refine ⟨ih1, by rw [ih2]; rfl, by rw [ih3]; rfl, ?_⟩
    intro p
    rw [ih4 p]
    simp only [RowNumber.spillInput, List.map_cons, List.flatten_cons,
      List.filter_append, List.append_assoc]

/-- What `RowNumber::spill` does to the operator state: clears the table,
releases the reservation, sets up the input spiller over the current spill
partition bit range, consumes any staged input into the input spill files,
and writes the partition table rows to the hash-table spill files of their
partitions. -/
theorem spill_spec (hash : Nat → Nat) (s : RowNumberState) :
    (RowNumber.spill hash s).table = [] ∧
    (RowNumber.spill hash s).reservation = 0 ∧
    (RowNumber.spill hash s).inputSpiller = true ∧
    (RowNumber.spill hash s).input = none ∧
    (RowNumber.spill hash s).inputSpillerBits = s.spillPartitionBits ∧
    (∀ p, (RowNumber.spill hash s).spillHashTableFiles p =
      s.spillHashTableFiles p ++
        (s.table.filter fun kv =>
          spillPartitionOf hash s.spillPartitionBits kv.1 = p)) ∧
    (∀ p, (RowNumber.spill hash s).spillInputFiles p =
      s.spillInputFiles p ++
        (((s.input).getD []).filter fun row =>
          spillPartitionOf hash s.spillPartitionBits row = p)) := by
  cases hin : s.input with
  | none =>
    simp [RowNumber.spill, RowNumber.spillHashTable, RowNumber.spillInput,
      hin]
  | some pending =>
    simp [RowNumber.spill, RowNumber.spillHashTable, RowNumber.spillInput,
      hin]

/-- Claim C7: once the RowNumber operator has spilled (`RowNumber::spill`,
triggered when reservation growth fails), the partition table has been
written to the spill files of the partitions its keys hash to, the
in-memory table is empty and the reservation released; and from then on
every new input batch is immediately hash-partitioned by the configured
`HashPartitionFunction` over the spill bit range and appended, in input
order, to the matching spill file for its partition, while the in-memory
table stays empty — new input is never inserted into it — until input ends
and restore begins. -/
theorem c7_rownumber_spills_input_after_spill
    (hash : Nat → Nat) (s : RowNumberState) (h : s.inputSpiller = false)
    (obs : List (MemOracle × List Nat)) (spillEnabled : Bool) :
    (RowNumber.spill hash s).table = [] ∧
    (RowNumber.spill hash s).reservation = 0 ∧
    (RowNumber.spill hash s).inputSpiller = true ∧
    (∀ p, (RowNumber.spill hash s).spillHashTableFiles p =
      s.spillHashTableFiles p ++
        (s.table.filter fun kv =>
          spillPartitionOf hash s.spillPartitionBits kv.1 = p)) ∧
    (RowNumber.addInputs hash obs spillEnabled
      (RowNumber.spill hash s)).table = [] ∧
    (RowNumber.addInputs hash obs spillEnabled
      (RowNumber.spill hash s)).inputSpiller = true ∧
    (∀ p, (RowNumber.addInputs hash obs spillEnabled
        (RowNumber.spill hash s)).spillInputFiles p =
      (RowNumber.spill hash s).spillInputFiles p ++
        ((obs.map Prod.snd).flatten.filter fun row =>
          spillPartitionOf hash s.spillPartitionBits row = p)) := by
  obtain ⟨h1, h2, h3, _, h5, h6, _⟩ := spill_spec hash s
  obtain ⟨g1, g2, _, g4⟩ :=
    addInputs_while_spilling hash obs spillEnabled (RowNumber.spill hash s) h3
  refine ⟨h1, h2, h3, h6, ?_, g1, ?_⟩
  · rw [g2, h1]
  · intro p
    rw [g4 p, h5]

/-- A concrete pre-spill operator state: three keys in the table, a staged
input batch, one-bit spill partitioning (partition = key parity under the
identity hash). -/
def rnTestState : RowNumberState :=
  { table := [(0, 2), (1, 1), (2, 3)], input := some [4, 5],
    inputSpiller := false, inputSpillerBits := (0, 0),
    spillInputFiles := fun _ => [], spillHashTableFiles := fun _ => [],
    reservation := 17, spillPartitionBits := (0, 1),
    exceededMaxSpillLevelLimit := false, spillMaxLevelExceededCount := 0 }

/-- Witness for C7 at `rnTestState` under the identity hash: after the
spill the table is empty, the reservation released, the even keys' table
rows in the partition-0 hash-table file; feeding one more batch `[6, 7]`
keeps the table empty and routes 6 to partition 0 (after the staged 4) and
7 to partition 1 (after the staged 5). -/
theorem c7_rownumber_spills_input_after_spill_witness :
    (RowNumber.spill id rnTestState).table = [] ∧
    (RowNumber.spill id rnTestState).reservation = 0 ∧
    (RowNumber.spill id rnTestState).spillHashTableFiles 0 =
      [(0, 2), (2, 3)] ∧
    (RowNumber.addInputs id [(⟨true, true, 0, false⟩, [6, 7])] true
      (RowNumber.spill id rnTestState)).table = [] ∧
    (RowNumber.addInputs id [(⟨true, true, 0, false⟩, [6, 7])] true
      (RowNumber.spill id rnTestState)).spillInputFiles 0 = [4, 6] ∧
    (RowNumber.addInputs id [(⟨true, true, 0, false⟩, [6, 7])] true
      (RowNumber.spill id rnTestState)).spillInputFiles 1 = [5, 7] := by
  have h := c7_rownumber_spills_input_after_spill id rnTestState rfl
    [(⟨true, true, 0, false⟩, [6, 7])] true
  refine ⟨h.1, h.2.1, (h.2.2.2.1 0).trans (by decide), h.2.2.2.2.1, ?_, ?_⟩
  · refine (h.2.2.2.2.2.2 0).trans ?_
    have hs := (spill_spec id rnTestState).2.2.2.2.2.2 0
    rw [hs]
    decide
  · refine (h.2.2.2.2.2.2 1).trans ?_
    have hs := (spill_spec id rnTestState).2.2.2.2.2.2 1
    rw [hs]
    decide

/-- Claim C8: recursive re-spilling is bounded by the configured maximum
spill level.  Whenever deepening the partition start bit for a nested
spill would exceed `maxSpillLevel`, `setSpillPartitionBits` sets the
exceeded flag and leaves the bit range unchanged; a reclaim request on an
operator with the flag set abandons spilling — it only increments the
exceeded-max-spill-level counter and returns the state otherwise
unchanged, as a normal (non-faulting) result, so the condition is never
escalated to a task failure by itself; without the flag set the same
reclaim request spills. -/
theorem c8_max_spill_level_abandons_spilling :
    (∀ (c : SpillConfig) (pid : SpillPartitionId) (s : RowNumberState),
      c.exceedSpillLevelLimit
        (partitionBitOffset pid c.startPartitionBit c.numPartitionBits +
          c.numPartitionBits) = true →
      (RowNumber.setSpillPartitionBits c (some pid) s).exceededMaxSpillLevelLimit
        = true ∧
      (RowNumber.setSpillPartitionBits c (some pid) s).spillPartitionBits =
        s.spillPartitionBits) ∧
    (∀ (hash : Nat → Nat) (s : RowNumberState),
      s.exceededMaxSpillLevelLimit = true → s.table.isEmpty = false →
      RowNumber.reclaim hash true false s =
        .ok { s with spillMaxLevelExceededCount :=
                s.spillMaxLevelExceededCount + 1 }) ∧
    (∀ (hash : Nat → Nat) (s : RowNumberState),
      s.exceededMaxSpillLevelLimit = false → s.table.isEmpty = false →
      RowNumber.reclaim hash true false s = .ok (RowNumber.spill hash s)) := by
  refine ⟨?_, ?_, ?_⟩
  · intro c pid s hexc
    constructor <;> simp [RowNumber.setSpillPartitionBits, hexc]
  · intro hash s hflag htab
    simp [RowNumber.reclaim, hflag, htab]
  · intro hash s hflag htab
    simp [RowNumber.reclaim, hflag, htab]

/-- A concrete operator state whose exceeded-max-spill-level flag is
already set and whose table is nonempty. -/
def rnExceededState : RowNumberState :=
  { table := [(1, 0)], input := none,
    inputSpiller := false, inputSpillerBits := (0, 0),
    spillInputFiles := fun _ => [], spillHashTableFiles := fun _ => [],
    reservation := 8, spillPartitionBits := (0, 2),
    exceededMaxSpillLevelLimit := true, spillMaxLevelExceededCount := 0 }

/-- Witness for C8 with `startPartitionBit = 0`, `numPartitionBits = 2`,
`maxSpillLevel = 1`: deepening from a level-1 restored partition reaches
offset 4, level 2 > 1, so the exceeded flag is set and the bit range kept;
reclaiming the flagged state only bumps the counter, keeps the table and
performs no spill, with no fault raised. -/
theorem c8_max_spill_level_abandons_spilling_witness :
    (RowNumber.setSpillPartitionBits ⟨0, 2, 1⟩ (some ⟨1, 0⟩)
      rnExceededState).exceededMaxSpillLevelLimit = true ∧
    (RowNumber.setSpillPartitionBits ⟨0, 2, 1⟩ (some ⟨1, 0⟩)
      rnExceededState).spillPartitionBits = (0, 2) ∧
    (RowNumber.reclaim id true false rnExceededState).map
        (fun st => (st.spillMaxLevelExceededCount, st.table,
          st.reservation, st.inputSpiller)) =
      .ok (1, [(1, 0)], 8, false) := by
  have h1 := (c8_max_spill_level_abandons_spilling.1 ⟨0, 2, 1⟩ ⟨1, 0⟩
    rnExceededState) (by decide)
  have h2 := c8_max_spill_level_abandons_spilling.2.1 id rnExceededState
    rfl rfl
  refine ⟨h1.1, h1.2.trans rfl, ?_⟩
  rw [h2]
  rfl
